import Mathlib

/-!
Shallow embedding of the episode extraction and classification pipeline of
the wing-scrape repository (src/hot-ones-scraper.ts, src/youtube-rss-enhancer.ts,
src/types.ts), together with theorems settling the frozen claims about it.

JavaScript strings are modelled as Lean `String` (with the primitive string
operations re-implemented over `List Char` so that they compute by kernel
reduction), JS arrays as `List`, `Map` as an association list built by
insertion, and thrown exceptions as `Option`/`Except`. Character classes are
modelled at their ASCII meaning. The host environment's time zone is taken to
be UTC, so `new Date(s).toISOString()` renders the parsed civil date itself.
-/

/-! ## String utilities modelling the JS string primitives -/

/-- Boolean test: the first list is a prefix of the second. -/
def isPrefixChars : List Char → List Char → Bool
  | [], _ => true
  | _ :: _, [] => false
  | a :: as, b :: bs => a == b && isPrefixChars as bs

/-- Boolean test: the needle occurs as a contiguous sublist of the haystack. -/
def subOccurs (needle : List Char) : List Char → Bool
  | [] => needle.isEmpty
  | c :: cs => isPrefixChars needle (c :: cs) || subOccurs needle cs

/-- Model of JS `hay.includes(needle)`. -/
def subStr (hay needle : String) : Bool :=
  subOccurs needle.data hay.data

/-- Model of JS `String.prototype.toLowerCase` (ASCII case mapping). -/
def jsToLower (s : String) : String :=
  String.mk (s.data.map Char.toLower)

/-- Model of JS `String.prototype.trim` (ASCII whitespace). -/
def jsTrim (s : String) : String :=
  String.mk (((s.data.dropWhile Char.isWhitespace).reverse.dropWhile
    Char.isWhitespace).reverse)

theorem isPrefixChars_iff (n h : List Char) :
    isPrefixChars n h = true ↔ ∃ t, h = n ++ t := by
  induction n generalizing h with
  | nil => simp [isPrefixChars]
  | cons a as ih =>
    cases h with
    | nil =>
      simp [isPrefixChars]
    | cons b bs =>
      simp only [isPrefixChars, Bool.and_eq_true, beq_iff_eq, ih, List.cons_append,
        List.cons.injEq]
      constructor
      · rintro ⟨rfl, t, rfl⟩; exact ⟨t, rfl, rfl⟩
      · rintro ⟨t, rfl, rfl⟩; exact ⟨rfl, t, rfl⟩

theorem subOccurs_iff (n h : List Char) :
    subOccurs n h = true ↔ ∃ s t, h = s ++ (n ++ t) := by
  induction h with
  | nil =>
    cases n with
    | nil => simp [subOccurs]
    | cons c cs => simp [subOccurs]
  | cons b bs ih =>
    simp only [subOccurs, Bool.or_eq_true, isPrefixChars_iff, ih]
    constructor
    · rintro (⟨t, ht⟩ | ⟨s, t, ht⟩)
      · exact ⟨[], t, by simp [ht]⟩
      · exact ⟨b :: s, t, by simp [ht]⟩
    · rintro ⟨s, t, ht⟩
      cases s with
      | nil => exact Or.inl ⟨t, by simpa using ht⟩
      | cons x xs =>
        simp only [List.cons_append, List.cons.injEq] at ht
        exact Or.inr ⟨xs, t, ht.2⟩

/-- Substring containment is transitive through an intermediate string. -/
theorem subStr_trans (hay mid needle : String)
    (h1 : subStr hay mid = true) (h2 : subStr mid needle = true) :
    subStr hay needle = true := by
  rw [subStr, subOccurs_iff] at h1 h2 ⊢
  obtain ⟨s, t, hst⟩ := h1
  obtain ⟨u, v, huv⟩ := h2
  exact ⟨s ++ u, v ++ t, by simp [hst, huv]⟩

/-! ## Data model (src/types.ts) -/

/-- One taxonomy tag attached to an episode (interface EpisodeTag). -/
structure EpisodeTag where
  category : String
  sub_categories : List String
deriving Repr, DecidableEq

/-- One scraped episode (interface HotOnesEpisode); the optional YouTube
fields are absent (`none`) until the enhancement step fills them. -/
structure HotOnesEpisode where
  season_number : Nat
  episode_number : Nat
  title : String
  air_date : String
  description : String
  tags : List EpisodeTag
  youtube_url : Option String := none
  youtube_video_id : Option String := none
  youtube_views : Option Int := none
  youtube_published_date : Option String := none
  youtube_search_url : Option String := none
deriving Repr, DecidableEq

/-- The static profession taxonomy (const PROFESSION_TAXONOMY), as an
ordered association list from category to its sub-category labels. -/
def PROFESSION_TAXONOMY : List (String × List String) :=
  [("Movie/TV",
    ["Actor", "Actress", "Director", "Producer", "Screenwriter", "TV Personality"]),
   ("Music", ["Rapper", "Singer", "Musician", "Songwriter", "DJ"]),
   ("Comedy", ["Stand-up Comedian", "Sketch Comedian", "Comedy Actor"]),
   ("Sports", ["Basketball Player", "Football Player", "Olympian", "Athlete"]),
   ("Food/Culinary", ["Chef", "Food Critic", "Restaurateur"]),
   ("Internet/Social Media", ["YouTuber", "TikToker", "Streamer", "Influencer"]),
   ("Other", ["Author", "Scientist", "Politician", "Journalist"])]

/-! ## Keyword classifier (HotOnesScraper.categorizeProfession and
HotOnesScraper.determineSubCategories) -/

/-- The per-category keyword lists of categorizeProfession, in declaration
order (JS object literal entries are enumerated in insertion order). -/
def categoryKeywords : List (String × List String) :=
  [("Movie/TV",
    ["actor", "actress", "acting", "film", "movie", "director", "producer",
     "television", "tv show", "series", "hollywood", "cinema", "screenwriter"]),
   ("Music",
    ["singer", "rapper", "musician", "album", "song", "music", "band",
     "artist", "grammy", "billboard", "record", "songwriter", "dj"]),
   ("Comedy",
    ["comedian", "comedy", "stand-up", "standup", "sketch", "funny",
     "humor", "snl", "saturday night live", "comic"]),
   ("Sports",
    ["player", "athlete", "sports", "basketball", "football", "baseball",
     "soccer", "tennis", "olympics", "nba", "nfl", "mlb", "championship"]),
   ("Food/Culinary",
    ["chef", "cook", "restaurant", "culinary", "food", "kitchen",
     "cuisine", "michelin", "cookbook"]),
   ("Internet/Social Media",
    ["youtuber", "youtube", "tiktoker", "tiktok", "streamer", "twitch",
     "influencer", "social media", "viral", "content creator"])]

/-- The finer keyword-to-subcategory table of determineSubCategories,
in declaration order. -/
def subCategoryKeywords : List (String × List String) :=
  [("Actor", ["actor", "acting"]),
   ("Actress", ["actress"]),
   ("Director", ["director", "directing"]),
   ("Producer", ["producer", "producing"]),
   ("Rapper", ["rapper", "rap", "hip hop", "hip-hop"]),
   ("Singer", ["singer", "singing", "vocalist"]),
   ("Musician", ["musician", "music"]),
   ("Stand-up Comedian", ["stand-up", "standup"]),
   ("Basketball Player", ["basketball", "nba"]),
   ("Football Player", ["football", "nfl"]),
   ("Chef", ["chef", "cook"]),
   ("YouTuber", ["youtube", "youtuber"]),
   ("TikToker", ["tiktok", "tiktoker"]),
   ("Streamer", ["streamer", "twitch"])]

/-- HotOnesScraper.determineSubCategories: sub-categories for a qualifying
category, from finer keyword matches filtered to the taxonomy's list for
that category, with a fallback to the taxonomy's first sub-category.
The matchedKeywords parameter is carried but, as in the source, unused. -/
def determineSubCategories (category : String) (matchedKeywords : List String)
    (text : String) : List String :=
  let taxonomySubCategories := (PROFESSION_TAXONOMY.lookup category).getD []
  let subCategories := subCategoryKeywords.filterMap fun p =>
    if taxonomySubCategories.contains p.1 &&
        p.2.any (fun keyword => subStr text keyword) then
      some p.1
    else none
  if subCategories.isEmpty then
    match taxonomySubCategories with
    | [] => []
    | first :: _ => [first]
  else subCategories

/-- HotOnesScraper.categorizeProfession: tags an episode from keyword
matches over the lower-cased concatenation of title and description. -/
def categorizeProfession (title description : String) : List EpisodeTag :=
  let combinedText := jsToLower (title ++ " " ++ description)
  let tags := categoryKeywords.filterMap fun p =>
    let matchedKeywords := p.2.filter fun keyword => subStr combinedText keyword
    if matchedKeywords.isEmpty then none
    else some (EpisodeTag.mk p.1 (determineSubCategories p.1 matchedKeywords combinedText))
  if tags.isEmpty then [EpisodeTag.mk "Other" ["Unknown"]]
  else tags

/-! ## Shared helper lemmas about the classifier -/

theorem one_le_length_ite_isEmpty {α : Type} (l d : List α) (hd : d ≠ []) :
    1 ≤ (if l.isEmpty then d else l).length := by
  cases l with
  | nil =>
    simp only [List.isEmpty_nil, if_true]
    exact Nat.one_le_iff_ne_zero.mpr (by simpa using hd)
  | cons x xs => simp

/-- The classifier always emits at least one tag. -/
theorem one_le_length_categorizeProfession (title description : String) :
    1 ≤ (categorizeProfession title description).length := by
  simp only [categorizeProfession]
  exact one_le_length_ite_isEmpty _ _ (by simp)

theorem filterMap_ite_none_eq_map_filter {α β : Type} (l : List α) (c : α → Bool)
    (f : α → β) :
    (l.filterMap fun a => if c a then none else some (f a)) =
      (l.filter fun a => !c a).map f := by
  induction l with
  | nil => simp
  | cons x xs ih => cases hx : c x <;> simp [hx, ih]

/-- For the Comedy category the sub-category computation is constant: the only
finer sub-category legal for Comedy is also the taxonomy's first Comedy entry. -/
theorem determineSubCategories_comedy (matchedKeywords : List String) (text : String) :
    determineSubCategories "Comedy" matchedKeywords text = ["Stand-up Comedian"] := by
  cases h1 : subStr text "stand-up" <;> cases h2 : subStr text "standup" <;>
    simp +decide [determineSubCategories, subCategoryKeywords, PROFESSION_TAXONOMY, h1, h2]

theorem determineSubCategories_ne_nil (category : String) (matchedKeywords : List String)
    (text : String) (htax : (PROFESSION_TAXONOMY.lookup category).getD [] ≠ []) :
    determineSubCategories category matchedKeywords text ≠ [] := by
  simp only [determineSubCategories]
  cases hsub : subCategoryKeywords.filterMap fun p =>
      if ((PROFESSION_TAXONOMY.lookup category).getD []).contains p.1 &&
          p.2.any (fun keyword => subStr text keyword) then
        some p.1
      else none with
  | nil =>
    cases htx : (PROFESSION_TAXONOMY.lookup category).getD [] with
    | nil => exact absurd htx htax
    | cons f r => simp [hsub, htx]
  | cons x xs => simp [hsub]

theorem determineSubCategories_fallback (category : String) (matchedKeywords : List String)
    (text : String)
    (h : ∀ p ∈ subCategoryKeywords, (p.2.any fun keyword => subStr text keyword) = false)
    (htax : (PROFESSION_TAXONOMY.lookup category).getD [] ≠ []) :
    determineSubCategories category matchedKeywords text =
      ((PROFESSION_TAXONOMY.lookup category).getD []).take 1 := by
  simp only [determineSubCategories]
  have hsub : (subCategoryKeywords.filterMap fun p =>
      if ((PROFESSION_TAXONOMY.lookup category).getD []).contains p.1 &&
          p.2.any (fun keyword => subStr text keyword) then
        some p.1
      else none) = [] := by
    rw [List.filterMap_eq_nil_iff]
    intro p hp
    simp [h p hp]
  rw [hsub]
  cases htx : (PROFESSION_TAXONOMY.lookup category).getD [] with
  | nil => exact absurd htx htax
  | cons f r => simp

/-! ## Claim theorems about the classifier -/

/-- C5: for every title and description whose combined lower-cased text contains
no keyword of any of the six fixed categories, categorizeProfession returns
exactly the one-element list with category "Other" and sub-categories ["Unknown"]. -/
theorem categorizeProfession_no_keyword_match (title description : String)
    (h : ∀ p ∈ categoryKeywords, ∀ keyword ∈ p.2,
      subStr (jsToLower (title ++ " " ++ description)) keyword = false) :
    categorizeProfession title description = [EpisodeTag.mk "Other" ["Unknown"]] := by
  simp only [categorizeProfession]
  have htags : (categoryKeywords.filterMap fun p =>
      if (p.2.filter fun keyword =>
          subStr (jsToLower (title ++ " " ++ description)) keyword).isEmpty then none
      else some (EpisodeTag.mk p.1 (determineSubCategories p.1
        (p.2.filter fun keyword => subStr (jsToLower (title ++ " " ++ description)) keyword)
        (jsToLower (title ++ " " ++ description))))) = [] := by
    rw [List.filterMap_eq_nil_iff]
    intro p hp
    have hfil : (p.2.filter fun keyword =>
        subStr (jsToLower (title ++ " " ++ description)) keyword) = [] := by
      rw [List.filter_eq_nil_iff]
      intro kw hkw
      simp [h p hp kw hkw]
    simp [hfil]
  rw [htags]
  simp

/-- C5 witness: classifying a title with no keyword occurrences yields the
"Other"/"Unknown" singleton. -/
theorem categorizeProfession_no_keyword_match_witness :
    categorizeProfession "Zyx" "" = [EpisodeTag.mk "Other" ["Unknown"]] :=
  categorizeProfession_no_keyword_match "Zyx" "" (by decide)

/-- C6: for every category qualifying in the classifier (one of the six declared
categories), the computed sub-category list is non-empty, and when no finer
sub-category keyword matches the text it is exactly the first taxonomy
sub-category of that category. -/
theorem determineSubCategories_spec (category : String) (matchedKeywords : List String)
    (text : String) (hcat : category ∈ categoryKeywords.map Prod.fst) :
    determineSubCategories category matchedKeywords text ≠ [] ∧
      ((∀ p ∈ subCategoryKeywords, (p.2.any fun keyword => subStr text keyword) = false) →
        determineSubCategories category matchedKeywords text =
          ((PROFESSION_TAXONOMY.lookup category).getD []).take 1) := by
  have hc : category ∈ ["Movie/TV", "Music", "Comedy", "Sports", "Food/Culinary",
      "Internet/Social Media"] := by
    simpa [categoryKeywords] using hcat
  have htax : (PROFESSION_TAXONOMY.lookup category).getD [] ≠ [] := by
    fin_cases hc <;> decide
  exact ⟨determineSubCategories_ne_nil category matchedKeywords text htax,
    fun h => determineSubCategories_fallback category matchedKeywords text h htax⟩

/-- C6 witness: the "Music" category on keyword-free text gets exactly the first
taxonomy sub-category, "Rapper". -/
theorem determineSubCategories_spec_witness :
    determineSubCategories "Music" [] "qq" ≠ [] ∧
      ((∀ p ∈ subCategoryKeywords, (p.2.any fun keyword => subStr "qq" keyword) = false) →
        determineSubCategories "Music" [] "qq" =
          ((PROFESSION_TAXONOMY.lookup "Music").getD []).take 1) :=
  determineSubCategories_spec "Music" [] "qq" (by decide)

/-- C7: the categories in the classifier output appear in the fixed declaration
order of the six categories (with "Other" exactly when none qualifies),
independent of where keywords match in the text. -/
theorem categorizeProfession_category_order (title description : String) :
    (categorizeProfession title description).map EpisodeTag.category =
      (let combinedText := jsToLower (title ++ " " ++ description)
       let qualifying := (categoryKeywords.filter fun p =>
         !(p.2.filter fun keyword => subStr combinedText keyword).isEmpty).map Prod.fst
       if qualifying.isEmpty then ["Other"] else qualifying) := by
  simp only [categorizeProfession]
  rw [filterMap_ite_none_eq_map_filter categoryKeywords
    (fun p => (p.2.filter fun keyword =>
      subStr (jsToLower (title ++ " " ++ description)) keyword).isEmpty)
    (fun p => EpisodeTag.mk p.1 (determineSubCategories p.1
      (p.2.filter fun keyword => subStr (jsToLower (title ++ " " ++ description)) keyword)
      (jsToLower (title ++ " " ++ description))))]
  cases hq : categoryKeywords.filter fun p =>
      !(p.2.filter fun keyword =>
          subStr (jsToLower (title ++ " " ++ description)) keyword).isEmpty with
  | nil => simp [hq]
  | cons a as =>
    simp only [hq, List.map_cons, List.isEmpty_cons, Bool.false_eq_true, if_false,
      List.map_map]
    rfl

/-- C8: any title/description whose combined lower-cased text contains
"stand-up comedian" is tagged with category "Comedy" and a sub-category list
containing "Stand-up Comedian". -/
theorem categorizeProfession_standup_comedian (title description : String)
    (h : subStr (jsToLower (title ++ " " ++ description)) "stand-up comedian" = true) :
    ∃ tag ∈ categorizeProfession title description,
      tag.category = "Comedy" ∧ "Stand-up Comedian" ∈ tag.sub_categories := by
  have hcomedian : subStr (jsToLower (title ++ " " ++ description)) "comedian" = true :=
    subStr_trans _ _ _ h (by decide)
  have hmem : EpisodeTag.mk "Comedy" ["Stand-up Comedian"] ∈
      categoryKeywords.filterMap (fun p =>
        if (p.2.filter fun keyword =>
            subStr (jsToLower (title ++ " " ++ description)) keyword).isEmpty then none
        else some (EpisodeTag.mk p.1 (determineSubCategories p.1
          (p.2.filter fun keyword =>
            subStr (jsToLower (title ++ " " ++ description)) keyword)
          (jsToLower (title ++ " " ++ description))))) := by
    rw [List.mem_filterMap]
    refine ⟨("Comedy",
      ["comedian", "comedy", "stand-up", "standup", "sketch", "funny",
       "humor", "snl", "saturday night live", "comic"]), by simp [categoryKeywords], ?_⟩
    have hne : (["comedian", "comedy", "stand-up", "standup", "sketch", "funny",
        "humor", "snl", "saturday night live", "comic"].filter fun keyword =>
          subStr (jsToLower (title ++ " " ++ description)) keyword) ≠ [] :=
      List.ne_nil_of_mem (List.mem_filter.mpr ⟨by simp, hcomedian⟩)
    show (if (["comedian", "comedy", "stand-up", "standup", "sketch", "funny",
        "humor", "snl", "saturday night live", "comic"].filter fun keyword =>
          subStr (jsToLower (title ++ " " ++ description)) keyword).isEmpty then none
      else some (EpisodeTag.mk "Comedy" (determineSubCategories "Comedy"
        (["comedian", "comedy", "stand-up", "standup", "sketch", "funny",
          "humor", "snl", "saturday night live", "comic"].filter fun keyword =>
            subStr (jsToLower (title ++ " " ++ description)) keyword)
        (jsToLower (title ++ " " ++ description))))) =
      some (EpisodeTag.mk "Comedy" ["Stand-up Comedian"])
    rw [if_neg (by simpa [List.isEmpty_iff] using hne), determineSubCategories_comedy]
  simp only [categorizeProfession]
  rw [if_neg (by simpa [List.isEmpty_iff] using List.ne_nil_of_mem hmem)]
  exact ⟨_, hmem, rfl, by simp⟩

/-- C8 witness: a concrete stand-up comedian title receives the Comedy tag. -/
theorem categorizeProfession_standup_comedian_witness :
    ∃ tag ∈ categorizeProfession "Jo stand-up comedian" "",
      tag.category = "Comedy" ∧ "Stand-up Comedian" ∈ tag.sub_categories :=
  categorizeProfession_standup_comedian "Jo stand-up comedian" "" (by decide)

/-! ## Air-date parsing (HotOnesScraper.parseAirDate), modelling the V8
`new Date(s)` / `toISOString()` pair on `<Month name> <day>, <year>` strings.
A date whose month word is not recognised is an Invalid Date, whose
`toISOString()` throws; that is modelled as `none`. Out-of-range day numbers
roll over into following months exactly as the JS time value does. -/

/-- Digits to the number they denote in base 10 (JS `parseInt(s, 10)` on an
all-digit string). -/
def digitsToNat (ds : List Char) : Nat :=
  ds.foldl (fun acc c => acc * 10 + (c.toNat - 48)) 0

/-- The English month names recognised by the V8 date parser. -/
def monthNames : List String :=
  ["january", "february", "march", "april", "may", "june", "july", "august",
   "september", "october", "november", "december"]

/-- Month-word recognition: V8 accepts any prefix of a month name of length at
least three (case-insensitively). -/
def jsMonthNumber (w : String) : Option Nat :=
  let lw := jsToLower w
  if lw.data.length < 3 then none
  else
    match monthNames.findIdx? (fun name => isPrefixChars lw.data name.data) with
    | some i => some (i + 1)
    | none => none

def isLeap (y : Nat) : Bool :=
  (y % 4 == 0 && y % 100 != 0) || y % 400 == 0

def daysInMonth (y m : Nat) : Nat :=
  if m == 2 then (if isLeap y then 29 else 28)
  else if m == 4 || m == 6 || m == 9 || m == 11 then 30
  else 31

/-- Roll an over-long day count forward through the months (the day component
of the grammar has at most two digits, so twelve steps of fuel suffice). -/
def normDateLoop : Nat → Nat → Nat → Nat → Nat × Nat × Nat
  | 0, y, m, d => (y, m, d)
  | fuel + 1, y, m, d =>
    if d ≤ daysInMonth y m then (y, m, d)
    else if m == 12 then normDateLoop fuel (y + 1) 1 (d - daysInMonth y m)
    else normDateLoop fuel y (m + 1) (d - daysInMonth y m)

/-- Normalise a (year, month, day) triple the way the JS time value does:
day 0 borrows from the previous month, day counts beyond the month roll over. -/
def normalizeDate (y m d : Nat) : Nat × Nat × Nat :=
  if d == 0 then
    if m == 1 then (y - 1, 12, 31) else (y, m - 1, daysInMonth y (m - 1))
  else normDateLoop 12 y m d

def pad2 (n : Nat) : String :=
  if n < 10 then "0" ++ toString n else toString n

def pad4 (n : Nat) : String :=
  if n < 10 then "000" ++ toString n
  else if n < 100 then "00" ++ toString n
  else if n < 1000 then "0" ++ toString n
  else toString n

/-- The date part of `toISOString()`: `YYYY-MM-DD`. -/
def renderISODate (y m d : Nat) : String :=
  pad4 y ++ "-" ++ pad2 m ++ "-" ++ pad2 d

/-- Parse the regex shape `^[A-Za-z]+ \d{1,2}, \d{4}$` into its three parts. -/
def parseMonthDayYear (s : String) : Option (String × Nat × Nat) :=
  match s.data.span (fun c => c.isAlpha) with
  | ([], _) => none
  | (w, rest) =>
    match rest with
    | ' ' :: rest1 =>
      match rest1.span (fun c => c.isDigit) with
      | ([], _) => none
      | (ds, rest2) =>
        if ds.length ≤ 2 then
          match rest2 with
          | ',' :: ' ' :: ys =>
            if ys.length == 4 && ys.all (fun c => c.isDigit) then
              some (String.mk w, digitsToNat ds, digitsToNat ys)
            else none
          | _ => none
        else none
    | _ => none

/-- The date-line test of extractEpisodeFromItem:
`/^[A-Za-z]+ \d{1,2}, \d{4}$/.test(text)`. -/
def matchesDatePattern (s : String) : Bool :=
  (parseMonthDayYear s).isSome

/-- Model of `new Date(s).toISOString().split('T')[0]` on the guarded date
grammar, at UTC; `none` models the RangeError thrown by `toISOString()` on an
Invalid Date. -/
def jsDateToISODate (s : String) : Option String :=
  match parseMonthDayYear s with
  | none => none
  | some (w, d, y) =>
    match jsMonthNumber w with
    | none => none
    | some m =>
      match normalizeDate y m d with
      | (y2, m2, d2) => some (renderISODate y2 m2 d2)

/-- HotOnesScraper.parseAirDate: render the parsed date as `YYYY-MM-DD`, or
return the original string unchanged when parsing (rendering) throws. -/
def parseAirDate (dateString : String) : String :=
  match jsDateToISODate dateString with
  | some iso => iso
  | none => dateString

/-! ## Document extraction (HotOnesScraper.extractEpisodes and
HotOnesScraper.extractEpisodeFromItem). The DOM queries are modelled by a
record of the text contents the scraper reads from each episode item
(`.episode-label`, the `h4` heading link, the `.list-inline li` texts and the
description paragraph; a missing element is `none`), and a season block is the
season-header text with, when the sibling `list-group` container exists, its
list of episode items. -/

structure EpisodeItem where
  episodeLabel : Option String
  heading : Option String
  listInline : List String
  paragraph : Option String
deriving Repr, DecidableEq

structure SeasonBlock where
  headerText : String
  episodeList : Option (List EpisodeItem)
deriving Repr, DecidableEq

/-- First match of `/S\d+E(\d+)/` starting at this position. -/
def matchSEAt (l : List Char) : Option Nat :=
  match l with
  | 'S' :: rest =>
    match rest.span (fun c => c.isDigit) with
    | ([], _) => none
    | (_, 'E' :: rest2) =>
      match rest2.span (fun c => c.isDigit) with
      | ([], _) => none
      | (es, _) => some (digitsToNat es)
    | _ => none
  | _ => none

/-- Unanchored scan for `/S\d+E(\d+)/`, first match wins. -/
def scanSE : List Char → Option Nat
  | [] => none
  | c :: cs =>
    match matchSEAt (c :: cs) with
    | some n => some n
    | none => scanSE cs

/-- First match of `/Season (\d+)/` starting at this position. -/
def matchSeasonAt (l : List Char) : Option Nat :=
  if isPrefixChars ("Season ").data l then
    match (l.drop 7).span (fun c => c.isDigit) with
    | ([], _) => none
    | (ds, _) => some (digitsToNat ds)
  else none

/-- Unanchored scan for `/Season (\d+)/`, first match wins. -/
def scanSeason : List Char → Option Nat
  | [] => none
  | c :: cs =>
    match matchSeasonAt (c :: cs) with
    | some n => some n
    | none => scanSeason cs

/-- HotOnesScraper.extractEpisodeFromItem: build one episode record from an
item's text contents, rejecting it (null) exactly when the title is empty. -/
def extractEpisodeFromItem (episodeItem : EpisodeItem) (seasonNumber : Nat) :
    Option HotOnesEpisode :=
  let episodeLabel := jsTrim (episodeItem.episodeLabel.getD "")
  let episodeNumber := (scanSE episodeLabel.data).getD 0
  let title := jsTrim (episodeItem.heading.getD "")
  let airDate :=
    match episodeItem.listInline.find? (fun el => matchesDatePattern (jsTrim el)) with
    | some el => parseAirDate (jsTrim el)
    | none => ""
  let description := jsTrim (episodeItem.paragraph.getD "")
  let tags := categorizeProfession title description
  if title = "" then none
  else some (HotOnesEpisode.mk seasonNumber episodeNumber title airDate description tags
    none none none none none)

/-- HotOnesScraper.extractEpisodes: walk the season blocks in document order,
parse each season number from its header, and collect the per-item records,
skipping seasons without an episode-list container and items that return null. -/
def extractEpisodes (document : List SeasonBlock) : List HotOnesEpisode :=
  document.flatMap fun seasonHeader =>
    let seasonText := jsTrim seasonHeader.headerText
    let seasonNumber := (scanSeason seasonText.data).getD 0
    match seasonHeader.episodeList with
    | some episodeItems =>
      episodeItems.filterMap fun episodeItem =>
        extractEpisodeFromItem episodeItem seasonNumber
    | none => []

/-! ## Scrape orchestrator (HotOnesScraper.scrapeAllEpisodes). The single page
fetch is modelled by its observable outcome: an HTTP response with a status,
a network error, or the 15-second AbortController timeout. A non-2xx status
throws `HTTP <status>`, and every caught error is re-thrown, so failures
surface as `Except.error`. -/

inductive FetchResult where
  | response (status : Nat) (html : List SeasonBlock)
  | networkError (message : String)
  | timeout
deriving Repr, DecidableEq

/-- JS `Response.ok`: status in the inclusive range 200–299. -/
def responseOk (status : Nat) : Bool :=
  decide (200 ≤ status) && decide (status < 300)

/-- HotOnesScraper.scrapeAllEpisodes as a function of the fetch outcome. -/
def scrapeAllEpisodes (fetchResult : FetchResult) : Except String (List HotOnesEpisode) :=
  match fetchResult with
  | .response status html =>
    if responseOk status then .ok (extractEpisodes html)
    else .error ("HTTP " ++ toString status)
  | .networkError message => .error message
  | .timeout => .error "This operation was aborted"

/-- A failed fetch: non-2xx status, network error, or timeout. -/
def fetchFailed : FetchResult → Prop
  | .response status _ => responseOk status = false
  | .networkError _ => True
  | .timeout => True

/-! ## Claim theorems about extraction, the orchestrator and date parsing -/

theorem extractEpisodeFromItem_inv (episodeItem : EpisodeItem) (seasonNumber : Nat)
    (episode : HotOnesEpisode)
    (h : extractEpisodeFromItem episodeItem seasonNumber = some episode) :
    episode.title ≠ "" ∧ 1 ≤ episode.tags.length := by
  simp only [extractEpisodeFromItem] at h
  by_cases ht : jsTrim (episodeItem.heading.getD "") = ""
  · rw [if_pos ht] at h
    exact absurd h (by simp)
  · rw [if_neg ht] at h
    obtain rfl := Option.some.inj h
    exact ⟨ht, one_le_length_categorizeProfession _ _⟩

/-- C1: every episode record emitted by the extraction pipeline has a non-empty
title and at least one tag. -/
theorem extractEpisodes_invariant (document : List SeasonBlock)
    (episode : HotOnesEpisode) (h : episode ∈ extractEpisodes document) :
    episode.title ≠ "" ∧ 1 ≤ episode.tags.length := by
  simp only [extractEpisodes] at h
  rw [List.mem_flatMap] at h
  obtain ⟨seasonHeader, _, hmem⟩ := h
  cases hel : seasonHeader.episodeList with
  | none => rw [hel] at hmem; exact absurd hmem (by simp)
  | some episodeItems =>
    rw [hel] at hmem
    rw [List.mem_filterMap] at hmem
    obtain ⟨episodeItem, _, hext⟩ := hmem
    exact extractEpisodeFromItem_inv episodeItem _ episode hext

/-- C1 witness: a one-season, one-item document emits exactly a record with
non-empty title and one tag. -/
theorem extractEpisodes_invariant_witness :
    (HotOnesEpisode.mk 1 1 "Guest One" "" "" [EpisodeTag.mk "Other" ["Unknown"]]
      none none none none none).title ≠ "" ∧
      1 ≤ (HotOnesEpisode.mk 1 1 "Guest One" "" "" [EpisodeTag.mk "Other" ["Unknown"]]
        none none none none none).tags.length :=
  extractEpisodes_invariant
    [SeasonBlock.mk "Season 1"
      (some [EpisodeItem.mk (some "S1E1") (some "Guest One") [] none])]
    (HotOnesEpisode.mk 1 1 "Guest One" "" "" [EpisodeTag.mk "Other" ["Unknown"]]
      none none none none none)
    (by decide)

/-- C2: whenever the page fetch fails (non-2xx status, network error, or the
15-second timeout), scrapeAllEpisodes signals the error to its caller and
never returns a list of episodes, partial or otherwise. -/
theorem scrapeAllEpisodes_fatal (fetchResult : FetchResult) (h : fetchFailed fetchResult) :
    (∃ e, scrapeAllEpisodes fetchResult = .error e) ∧
      ∀ episodes, scrapeAllEpisodes fetchResult ≠ .ok episodes := by
  cases fetchResult with
  | response status html =>
    simp only [fetchFailed] at h
    simp [scrapeAllEpisodes, h]
  | networkError message => simp [scrapeAllEpisodes]
  | timeout => simp [scrapeAllEpisodes]

/-- C2 witness: a timed-out fetch yields an error and no episode list. -/
theorem scrapeAllEpisodes_fatal_witness :
    (∃ e, scrapeAllEpisodes .timeout = .error e) ∧
      ∀ episodes, scrapeAllEpisodes .timeout ≠ .ok episodes :=
  scrapeAllEpisodes_fatal .timeout trivial

/-- C4: parseAirDate renders "August 4, 2025" as "2025-08-04"; in general a
matched date string that parses is rendered as `YYYY-MM-DD`, and one whose
parsing throws is returned unchanged. -/
theorem parseAirDate_spec :
    parseAirDate "August 4, 2025" = "2025-08-04" ∧
      (∀ s iso, jsDateToISODate s = some iso → parseAirDate s = iso) ∧
      (∀ s, jsDateToISODate s = none → parseAirDate s = s) := by
  refine ⟨by decide, ?_, ?_⟩
  · intro s iso h
    simp [parseAirDate, h]
  · intro s h
    simp [parseAirDate, h]

/-- C4 witness: the concrete rendering, and the unchanged fallback on a
pattern-matched string whose month word is not a month. -/
theorem parseAirDate_spec_witness :
    parseAirDate "August 4, 2025" = "2025-08-04" ∧
      parseAirDate "Foobar 4, 2025" = "Foobar 4, 2025" :=
  ⟨parseAirDate_spec.1, parseAirDate_spec.2.2 "Foobar 4, 2025" (by decide)⟩

/-! ## YouTube RSS enhancer (src/youtube-rss-enhancer.ts). Feed items carry the
fields the code reads; the nested `media:group` / `media:community` /
`media:statistics` optional chain is modelled by nested optional records, with
the `$.views` wrapper collapsed into the statistics record. -/

structure YouTubeVideoData where
  title : String
  youtube_url : String
  video_id : String
  published_date : String
  description : String
  view_count : Int
  duration : Option String := none
deriving Repr, DecidableEq

structure MediaStatistics where
  views : String
deriving Repr, DecidableEq

structure MediaCommunity where
  mediaStatistics : Option MediaStatistics
deriving Repr, DecidableEq

structure MediaGroup where
  mediaDescription : Option String
  mediaCommunity : Option MediaCommunity
deriving Repr, DecidableEq

structure CustomRSSItem where
  title : String
  link : String
  pubDate : String
  contentSnippet : Option String
  ytVideoId : Option String
  mediaGroup : Option MediaGroup
deriving Repr, DecidableEq

/-- Scan for `/[?&]v=([^&]+)/`: a `?` or `&`, then `v=`, then one or more
non-`&` characters (the capture). -/
def scanVideoId : List Char → Option (List Char)
  | [] => none
  | c :: cs =>
    if c == '?' || c == '&' then
      match cs with
      | 'v' :: '=' :: rest =>
        match rest.takeWhile (fun d => d != '&') with
        | [] => scanVideoId cs
        | cap => some cap
      | _ => scanVideoId cs
    else scanVideoId cs

/-- YouTubeRSSEnhancer.extractVideoId. -/
def extractVideoId (url : String) : String :=
  match scanVideoId url.data with
  | some cap => String.mk cap
  | none => ""

/-- Leading digit run, `none` when there is none (the NaN case of parseInt). -/
def jsParseIntDigits (l : List Char) : Option Nat :=
  match l.takeWhile (fun c => c.isDigit) with
  | [] => none
  | ds => some (digitsToNat ds)

/-- Model of JS `parseInt(s, 10)`; `none` is NaN. -/
def jsParseInt10 (s : String) : Option Int :=
  match s.data.dropWhile Char.isWhitespace with
  | '-' :: rest => (jsParseIntDigits rest).map (fun n => -(n : Int))
  | '+' :: rest => (jsParseIntDigits rest).map (fun n => (n : Int))
  | rest => (jsParseIntDigits rest).map (fun n => (n : Int))

def validCivilDate (y m d : Nat) : Bool :=
  decide (1 ≤ m) && decide (m ≤ 12) && decide (1 ≤ d) && decide (d ≤ daysInMonth y m)

/-- The date part of a zero-offset ISO-8601 timestamp
(`YYYY-MM-DDThh:mm:ss` followed by `Z`, `.dddZ` or `+00:00`), `none` when the
string is not of that shape or the fields are out of range. -/
def parseISOTimestampDate (s : String) : Option String :=
  match s.data with
  | y1 :: y2 :: y3 :: y4 :: '-' :: m1 :: m2 :: '-' :: d1 :: d2 :: 'T' ::
      h1 :: h2 :: ':' :: n1 :: n2 :: ':' :: s1 :: s2 :: rem =>
    if [y1, y2, y3, y4, m1, m2, d1, d2, h1, h2, n1, n2, s1, s2].all
        (fun c => c.isDigit) then
      let y := digitsToNat [y1, y2, y3, y4]
      let mo := digitsToNat [m1, m2]
      let da := digitsToNat [d1, d2]
      let hh := digitsToNat [h1, h2]
      let mi := digitsToNat [n1, n2]
      let ss := digitsToNat [s1, s2]
      let remOk := rem == ['Z'] || rem == ['+', '0', '0', ':', '0', '0'] ||
        (match rem with
         | ['.', f1, f2, f3, 'Z'] => [f1, f2, f3].all (fun c => c.isDigit)
         | _ => false)
      if remOk && validCivilDate y mo da && decide (hh < 24) && decide (mi < 60) &&
          decide (ss < 60) then
        some (String.mk [y1, y2, y3, y4, '-', m1, m2, '-', d1, d2])
      else none
    else none
  | _ => none

/-- Model of `new Date(s).toISOString().split('T')[0]` for the timestamp shapes
reaching parseVideoItem: zero-offset ISO timestamps (the feed's pubDate form)
and the month-name date grammar; anything else is an Invalid Date whose
rendering throws (`none`). -/
def jsTimestampToISODate (s : String) : Option String :=
  match parseISOTimestampDate s with
  | some d => some d
  | none => jsDateToISODate s

/-- YouTubeRSSEnhancer.parseVideoItem: `none` models the caught exception path
(the publish-date rendering throwing on an unparseable pubDate). -/
def parseVideoItem (item : CustomRSSItem) : Option YouTubeVideoData :=
  let videoId :=
    let extracted := extractVideoId item.link
    if extracted ≠ "" then extracted else item.ytVideoId.getD ""
  let viewCount : Int :=
    match item.mediaGroup with
    | some mg =>
      match mg.mediaCommunity with
      | some mc =>
        match mc.mediaStatistics with
        | some st => (jsParseInt10 st.views).getD 0
        | none => 0
      | none => 0
    | none => 0
  let description :=
    let d1 := (item.mediaGroup.bind MediaGroup.mediaDescription).getD ""
    if d1 ≠ "" then d1 else item.contentSnippet.getD ""
  match jsTimestampToISODate item.pubDate with
  | none => none
  | some publishedDate =>
    some (YouTubeVideoData.mk item.title item.link videoId publishedDate description
      viewCount none)

/-! ## Matching-key generation (YouTubeRSSEnhancer.generateMatchingKeys) -/

/-- The two show-name prefix regex variants
(`/^hot ones[:\-\s]*(.+)/i` and `/^first we feast[:\-\s]*(.+)/i`). -/
def hotOnesVariations : List String :=
  ["hot ones", "first we feast"]

/-- Characters of the regex class `[:\-\s]`. -/
def sepClassChar (c : Char) : Bool :=
  c == ':' || c == '-' || c.isWhitespace

/-- Apply one show-name prefix variant to the (already lower-cased) |normalized|
title: the greedy class run is stripped and `(.+)` captures the rest; when the
whole suffix is class characters the capture backtracks to the last one. The
returned capture is trimmed, as pushed by the source. -/
def matchShowNameVariation (pfx : String) (normalized : String) : Option String :=
  if isPrefixChars pfx.data normalized.data then
    match normalized.data.drop pfx.data.length with
    | [] => none
    | sc :: suffixRest =>
      let rest := (sc :: suffixRest).dropWhile sepClassChar
      match rest with
      | [] => some (jsTrim (String.mk [(sc :: suffixRest).getLastD sc]))
      | _ => some (jsTrim (String.mk rest))
  else none

/-- The prefix of the haystack before the first occurrence of the needle,
`none` when the needle does not occur (`parts[0]` of a JS split that produced
more than one part). -/
def beforeFirst (sep : List Char) : List Char → Option (List Char)
  | [] => if sep.isEmpty then some [] else none
  | c :: cs =>
    if isPrefixChars sep (c :: cs) then some []
    else
      match beforeFirst sep cs with
      | some pre => some (c :: pre)
      | none => none

/-- The five separator tokens of generateMatchingKeys. -/
def separators : List String :=
  ["|", "–", "-", ":", "eats"]

/-- The keys array of generateMatchingKeys after its three push phases: the
normalized title, the show-name-stripped variants, and the before-separator
guest-name parts. -/
def rawKeys (title : String) : List String :=
  let normalized := jsTrim (jsToLower title)
  [normalized]
    ++ hotOnesVariations.filterMap (fun pfx => matchShowNameVariation pfx normalized)
    ++ separators.filterMap (fun sep =>
        match beforeFirst sep.data normalized.data with
        | some pre =>
          let guestPart := jsTrim (String.mk pre)
          if guestPart ≠ "" ∧ guestPart ≠ normalized then some guestPart else none
        | none => none)

/-- JS `\w`: ASCII letters, digits and underscore. -/
def jsWordChar (c : Char) : Bool :=
  c.isAlphanum || c == '_'

/-- The stop-word alternation of the cleaning regex
`/\b(the|a|an|and|or|but|with|hot ones|first we feast)\b/gi`, in order. -/
def stopWordAlternatives : List String :=
  ["the", "a", "an", "and", "or", "but", "with", "hot ones", "first we feast"]

/-- Try the alternation at this position: the first alternative that is a
prefix here and is followed by a word boundary wins; returns its length. -/
def tryStopWordMatch (rest : List Char) : Option Nat :=
  stopWordAlternatives.findSome? fun alt =>
    if isPrefixChars alt.data rest then
      match rest.drop alt.data.length with
      | [] => some alt.data.length
      | d :: _ => if jsWordChar d then none else some alt.data.length
    else none

/-- Global replace of the stop-word regex by the empty string. Each
alternative starts and ends with a word character, so a match can start only
after a non-word character (or at the start), and scanning resumes after the
matched text. Fuel is the remaining length, consumed at least one per step. -/
def removeStopWordsAux : Nat → Option Char → List Char → List Char
  | 0, _, rest => rest
  | _ + 1, _, [] => []
  | fuel + 1, prev, c :: cs =>
    let boundary :=
      match prev with
      | none => true
      | some p => !jsWordChar p
    if boundary then
      match tryStopWordMatch (c :: cs) with
      | some len =>
        removeStopWordsAux fuel (some (((c :: cs).take len).getLastD c))
          ((c :: cs).drop len)
      | none => c :: removeStopWordsAux fuel (some c) cs
    else c :: removeStopWordsAux fuel (some c) cs

/-- Global replace of `/\s+/` by a single space. -/
def collapseWhitespace : Nat → List Char → List Char
  | 0, rest => rest
  | _ + 1, [] => []
  | fuel + 1, c :: cs =>
    if c.isWhitespace then
      ' ' :: collapseWhitespace fuel (cs.dropWhile Char.isWhitespace)
    else c :: collapseWhitespace fuel cs

/-- The per-key cleanup of generateMatchingKeys: remove stop words, collapse
whitespace, trim. -/
def cleanKey (key : String) : String :=
  let removed := removeStopWordsAux (key.data.length + 1) none key.data
  jsTrim (String.mk (collapseWhitespace (removed.length + 1) removed))

/-- Deduplication keeping first occurrences (JS `new Set` iteration order). -/
def dedupFirstAux {α : Type} [DecidableEq α] (seen : List α) : List α → List α
  | [] => []
  | x :: xs =>
    if x ∈ seen then dedupFirstAux seen xs
    else x :: dedupFirstAux (x :: seen) xs

def dedupFirst {α : Type} [DecidableEq α] (l : List α) : List α :=
  dedupFirstAux [] l

/-- YouTubeRSSEnhancer.generateMatchingKeys: the raw keys, plus their cleaned
variants kept only when longer than two characters, deduplicated in order. -/
def generateMatchingKeys (title : String) : List String :=
  let keys := rawKeys title
  let cleanedKeys := (keys.map cleanKey).filter fun key => decide (2 < key.data.length)
  dedupFirst (keys ++ cleanedKeys)

/-! ## Feed map construction and enhancement (YouTubeRSSEnhancer.fetchYouTubeData) -/

/-- One `videoMap` update: `if (!videoMap.has(key)) videoMap.set(key, videoData)`. -/
def videoMapInsert (videoMap : List (String × YouTubeVideoData)) (key : String)
    (videoData : YouTubeVideoData) : List (String × YouTubeVideoData) :=
  if (videoMap.lookup key).isSome then videoMap else (key, videoData) :: videoMap

/-- YouTubeRSSEnhancer.fetchYouTubeData as a function of the feed fetch/parse
outcome: on success, fold the items into the matching-key map with
insert-if-absent; on a caught error, return the empty map. -/
def fetchYouTubeData (feedResult : Except String (List CustomRSSItem)) :
    List (String × YouTubeVideoData) :=
  match feedResult with
  | .error _ => []
  | .ok items =>
    items.foldl
      (fun videoMap item =>
        match parseVideoItem item with
        | none => videoMap
        | some videoData =>
          (generateMatchingKeys videoData.title).foldl
            (fun m key => videoMapInsert m key videoData) videoMap)
      []

/-! ## Search-URL synthesis (YouTubeRSSEnhancer.generateYouTubeSearchUrl) -/

/-- `replace(/^hot ones[:\-\s]*/i, '')`: strip a case-insensitive show-name
prefix together with the greedy class run that follows it. -/
def stripShowNamePfx (t : List Char) : List Char :=
  if isPrefixChars ("hot ones").data (t.map Char.toLower) then
    (t.drop 8).dropWhile sepClassChar
  else t

/-- `replace(/\s*<sep>\s*.*$/, '')`: delete from the whitespace run preceding
the first occurrence of the separator through the end of the string. -/
def stripFromSeparator (sep : Char) (t : List Char) : List Char :=
  match beforeFirst [sep] t with
  | some pre => (pre.reverse.dropWhile Char.isWhitespace).reverse
  | none => t

/-- The characters encodeURIComponent leaves unescaped. -/
def isUnreservedURIChar (c : Char) : Bool :=
  c.isAlphanum || c == '-' || c == '_' || c == '.' || c == '!' || c == '~' ||
    c == '*' || c.toNat == 39 || c == '(' || c == ')'

def hexDigit (n : Nat) : Char :=
  if n < 10 then Char.ofNat (48 + n) else Char.ofNat (55 + n)

/-- UTF-8 byte values of one character. -/
def utf8Bytes (c : Char) : List Nat :=
  let n := c.toNat
  if n < 128 then [n]
  else if n < 2048 then [192 + n / 64, 128 + n % 64]
  else if n < 65536 then [224 + n / 4096, 128 + (n / 64) % 64, 128 + n % 64]
  else [240 + n / 262144, 128 + (n / 4096) % 64, 128 + (n / 64) % 64, 128 + n % 64]

def percentByte (b : Nat) : List Char :=
  ['%', hexDigit (b / 16), hexDigit (b % 16)]

/-- Model of JS `encodeURIComponent`. -/
def encodeURIComponent (s : String) : String :=
  String.mk (s.data.flatMap fun c =>
    if isUnreservedURIChar c then [c] else (utf8Bytes c).flatMap percentByte)

/-- YouTubeRSSEnhancer.generateYouTubeSearchUrl. The optional season and
episode numbers are modelled as Nat with 0 for the absent/falsy case, matching
the `if (seasonNumber && episodeNumber)` truthiness test. -/
def generateYouTubeSearchUrl (episodeTitle : String) (seasonNumber episodeNumber : Nat) :
    String :=
  let step1 := stripShowNamePfx episodeTitle.data
  let step2 := stripFromSeparator '|' step1
  let step3 := stripFromSeparator '–' step2
  let step4 := stripFromSeparator '-' step3
  let cleanTitle := jsTrim (String.mk step4)
  let searchTerms :=
    (if cleanTitle ≠ "" then ["\"" ++ cleanTitle ++ "\""] else [])
      ++ ["Hot Ones"]
      ++ (if seasonNumber ≠ 0 ∧ episodeNumber ≠ 0 then
            ["season " ++ toString seasonNumber, "episode " ++ toString episodeNumber]
          else [])
      ++ ["spicy wings"]
  let query := encodeURIComponent (String.intercalate " " searchTerms)
  "https://www.youtube.com/results?search_query=" ++ query

/-- Modelled from the spec: the episode-enhancement step of section 4.4
(steps 3 and 4) that consumes the matching-key map is code of this repository
that is not among the provided source files (only its output fields appear in
the episode type and the interactive front-end). Per the spec, each episode's
normalized title is looked up in the prebuilt key map; a hit attaches the
direct video fields, a miss attaches the generated search URL. -/
def enhanceEpisodes (videoMap : List (String × YouTubeVideoData))
    (episodes : List HotOnesEpisode) : List HotOnesEpisode :=
  episodes.map fun episode =>
    match videoMap.lookup (jsTrim (jsToLower episode.title)) with
    | some v =>
      { episode with
          youtube_url := some v.youtube_url
          youtube_video_id := some v.video_id
          youtube_views := some v.view_count
          youtube_published_date := some v.published_date }
    | none =>
      { episode with
          youtube_search_url := some (generateYouTubeSearchUrl episode.title
            episode.season_number episode.episode_number) }

/-! ## Shared helper lemmas about the enhancer -/

theorem mem_dedupFirstAux {α : Type} [DecidableEq α] (seen l : List α) (a : α) :
    a ∈ dedupFirstAux seen l ↔ a ∈ l ∧ a ∉ seen := by
  induction l generalizing seen with
  | nil => simp [dedupFirstAux]
  | cons x xs ih =>
    by_cases hx : x ∈ seen
    · rw [dedupFirstAux, if_pos hx, ih]
      constructor
      · rintro ⟨h1, h2⟩
        exact ⟨List.mem_cons_of_mem x h1, h2⟩
      · rintro ⟨h1, h2⟩
        cases List.mem_cons.mp h1 with
        | inl heq => exact absurd (heq ▸ hx) h2
        | inr hmem => exact ⟨hmem, h2⟩
    · rw [dedupFirstAux, if_neg hx]
      constructor
      · intro hmem
        cases List.mem_cons.mp hmem with
        | inl heq => exact ⟨heq ▸ List.mem_cons_self x xs, heq ▸ hx⟩
        | inr hrest =>
          obtain ⟨h1, h2⟩ := (ih (x :: seen)).mp hrest
          exact ⟨List.mem_cons_of_mem x h1, fun hs => h2 (List.mem_cons_of_mem x hs)⟩
      · rintro ⟨h1, h2⟩
        cases List.mem_cons.mp h1 with
        | inl heq => exact heq ▸ List.mem_cons_self x _
        | inr hmem =>
          by_cases hax : a = x
          · exact hax ▸ List.mem_cons_self x _
          · refine List.mem_cons_of_mem x ((ih (x :: seen)).mpr ⟨hmem, ?_⟩)
            intro hs
            cases List.mem_cons.mp hs with
            | inl h => exact hax h
            | inr h => exact h2 h

theorem nodup_dedupFirstAux {α : Type} [DecidableEq α] (seen l : List α) :
    (dedupFirstAux seen l).Nodup := by
  induction l generalizing seen with
  | nil => simp [dedupFirstAux]
  | cons x xs ih =>
    by_cases hx : x ∈ seen
    · rw [dedupFirstAux, if_pos hx]
      exact ih seen
    · rw [dedupFirstAux, if_neg hx, List.nodup_cons]
      refine ⟨fun hmem => ?_, ih (x :: seen)⟩
      exact ((mem_dedupFirstAux (x :: seen) xs x).mp hmem).2 (List.mem_cons_self x seen)

theorem mem_dedupFirst {α : Type} [DecidableEq α] (l : List α) (a : α) :
    a ∈ dedupFirst l ↔ a ∈ l := by
  rw [dedupFirst, mem_dedupFirstAux]
  simp

/-- The result of a map lookup with a fallback for a miss (the shape of the
first-writer-wins invariant). -/
def firstSome {α : Type} (o fallback : Option α) : Option α :=
  match o with
  | some w => some w
  | none => fallback

theorem firstSome_some {α : Type} (w : α) (fallback : Option α) :
    firstSome (some w) fallback = some w := rfl

theorem firstSome_none {α : Type} (fallback : Option α) :
    firstSome none fallback = fallback := rfl

/-- Looking up after folding one entry's keys into the map: an existing binding
survives; otherwise the key is newly bound exactly when it is one of the keys. -/
theorem videoMapInsert_foldl_lookup (keys : List String)
    (videoMap : List (String × YouTubeVideoData)) (v : YouTubeVideoData) (k : String) :
    (keys.foldl (fun m key => videoMapInsert m key v) videoMap).lookup k =
      firstSome (videoMap.lookup k) (if keys.contains k then some v else none) := by
  induction keys generalizing videoMap with
  | nil => cases hk : videoMap.lookup k <;> simp [firstSome, hk]
  | cons k0 ks ih =>
    rw [List.foldl_cons, ih]
    by_cases h0 : (videoMap.lookup k0).isSome
    · rw [videoMapInsert, if_pos h0]
      cases hk : videoMap.lookup k with
      | some w => simp [firstSome]
      | none =>
        by_cases hkk : k = k0
        · subst hkk
          rw [hk] at h0
          exact absurd h0 (by simp)
        · simp [firstSome, hkk]
    · rw [videoMapInsert, if_neg h0, List.lookup_cons]
      by_cases hkk : k = k0
      · subst hkk
        rw [Option.not_isSome_iff_eq_none] at h0
        simp [firstSome, h0]
      · have hbeq : (k == k0) = false := beq_eq_false_iff_ne.mpr hkk
        rw [hbeq]
        cases hk : videoMap.lookup k <;> simp [firstSome, hk, hkk]

/-- Looking up after folding a run of feed items into the map: an existing
binding survives; otherwise the binding is the first parsed item in feed order
one of whose matching keys is the key. -/
theorem fetchYouTubeData_lookup_loop (items : List CustomRSSItem)
    (videoMap : List (String × YouTubeVideoData)) (k : String) :
    (items.foldl
        (fun m item =>
          match parseVideoItem item with
          | none => m
          | some videoData =>
            (generateMatchingKeys videoData.title).foldl
              (fun m2 key => videoMapInsert m2 key videoData) m)
        videoMap).lookup k =
      firstSome (videoMap.lookup k)
        ((items.filterMap parseVideoItem).find?
          (fun v => (generateMatchingKeys v.title).contains k)) := by
  induction items generalizing videoMap with
  | nil => cases hk : videoMap.lookup k <;> simp [firstSome, hk]
  | cons item items ih =>
    rw [List.foldl_cons]
    cases hp : parseVideoItem item with
    | none =>
      rw [ih]
      simp only [List.filterMap_cons, hp]
    | some v =>
      have hfm : (item :: items).filterMap parseVideoItem =
          v :: items.filterMap parseVideoItem := by
        simp only [List.filterMap_cons, hp]
      rw [ih, videoMapInsert_foldl_lookup, hfm]
      cases hk : videoMap.lookup k with
      | some w => rw [firstSome_some, firstSome_some, firstSome_some]
      | none =>
        rw [firstSome_none, firstSome_none]
        cases hc : (generateMatchingKeys v.title).contains k with
        | true =>
          rw [if_pos (rfl : (true : Bool) = true), firstSome_some]
          exact (@List.find?_cons_of_pos YouTubeVideoData
            (fun w => (generateMatchingKeys w.title).contains k) v
            (items.filterMap parseVideoItem) hc).symm
        | false =>
          rw [if_neg (by simp : ¬((false : Bool) = true)), firstSome_none]
          exact (@List.find?_cons_of_neg YouTubeVideoData
            (fun w => (generateMatchingKeys w.title).contains k) v
            (items.filterMap parseVideoItem)
            (by simp only [hc]; exact Bool.false_ne_true)).symm

/-! ## Claim theorems about the enhancer -/

/-- C3: in the matching-key map built by fetchYouTubeData, every key is bound
to the first feed entry (in feed order) that derives it; a key claimed by an
earlier entry is never overwritten by a later one. -/
theorem fetchYouTubeData_first_writer_wins (items : List CustomRSSItem) (key : String) :
    (fetchYouTubeData (Except.ok items)).lookup key =
      (items.filterMap parseVideoItem).find?
        (fun v => (generateMatchingKeys v.title).contains key) := by
  have h := fetchYouTubeData_lookup_loop items [] key
  simpa [fetchYouTubeData] using h

/-- C9: a feed fetch or parse failure is caught by fetchYouTubeData, which
returns the empty matching-key map, on which every lookup misses, so the
(spec-modelled) enhancement step attaches a search URL and no direct link to
every episode. -/
theorem fetchYouTubeData_failure_degrades (e : String) (episodes : List HotOnesEpisode) :
    fetchYouTubeData (Except.error e) = [] ∧
      (∀ key, (fetchYouTubeData (Except.error e)).lookup key = none) ∧
      enhanceEpisodes (fetchYouTubeData (Except.error e)) episodes =
        episodes.map (fun episode =>
          { episode with
              youtube_search_url := some (generateYouTubeSearchUrl episode.title
                episode.season_number episode.episode_number) }) := by
  refine ⟨rfl, fun key => rfl, ?_⟩
  rfl

/-- C10: generateMatchingKeys returns a duplicate-free list headed by the full
lower-cased trimmed title, and every raw (uncleaned) key is retained in the
output regardless of its length — the length filter applies only to the
cleaned variants. -/
theorem generateMatchingKeys_spec (title : String) :
    (generateMatchingKeys title).Nodup ∧
      (generateMatchingKeys title).head? = some (jsTrim (jsToLower title)) ∧
      ∀ key ∈ rawKeys title, key ∈ generateMatchingKeys title := by
  refine ⟨nodup_dedupFirstAux [] _, ?_, ?_⟩
  · rfl
  · intro key hk
    rw [generateMatchingKeys, mem_dedupFirst]
    exact List.mem_append_left _ hk

/-- C10 witness: the stripped guest-name raw key of a concrete show-name title
is retained in the generated keys. -/
theorem generateMatchingKeys_spec_witness :
    "gordon ramsay" ∈ rawKeys "Hot Ones: Gordon Ramsay" ∧
      "gordon ramsay" ∈ generateMatchingKeys "Hot Ones: Gordon Ramsay" :=
  ⟨by decide, (generateMatchingKeys_spec "Hot Ones: Gordon Ramsay").2.2
    "gordon ramsay" (by decide)⟩
